import Mathlib

/-!
# Verification of the oura-etl normalization/flattening engine

A shallow embedding of the core of the `oura-etl` repository:

* `src/oura_etl/transformers.py` — the per-metric-type normalizers
  (`_normalize_activity_data`, `_normalize_sleep_data`,
  `_normalize_readiness_data`, `_normalize_spo2_data`,
  `_normalize_resilience_data`, `_normalize_daily_sleep`) and the batch
  assembler `transform_to_parquet`;
* `src/oura_etl/database.py` — `Database.save_records` (upsert by
  `session.merge`);
* `src/oura_etl/loader.py` — `OuraLoader.load_parquet`'s database write
  (`DataFrame.to_sql(..., if_exists='append')`).

Modelling conventions:

* Decoded JSON values are the inductive `Val`; Python dicts are association
  lists in insertion order with unique keys (uniqueness is assumed as a
  hypothesis where a proof needs it).  `isinstance(v, (dict, list))` is
  `Val.isContainer`.
* Python exceptions are `Except String`; an uncaught exception aborts the
  whole computation, exactly as in the source (which has no per-item
  `try`/`except` inside `transform_to_parquet`).
* `str(uuid.uuid4())` is modelled as a fresh-id supply: a natural-number
  counter threaded through every normalizer, with `uuidStr` an injective
  embedding of counter values into strings.  All the source needs from
  `uuid4` is that every draw is distinct from every other draw, which the
  counter model provides.
* File I/O (parquet read/write, directory layout) is the excluded
  `ColumnStore` collaborator: `transform_to_parquet` is modelled as the
  function from a raw payload to its list of (file-name-prefix, rows)
  batches, in the order the source writes the files.
* Floating point: sample values are rationals; the distinguished `vnan`
  constructor models a float `NaN` (the only property of `NaN` the source
  uses is the `np.isnan` test).  Numeric-string parsing by Python's
  `float()` is not modelled (strings conservatively error); no claim
  involves string-valued numeric fields.
-/

namespace OuraEtl

/-- A decoded JSON value as Python sees it: `None`, float `NaN`, `bool`,
`int`, `float`, `str`, `dict` (association list in insertion order) or
`list`. -/
inductive Val where
  | vnull : Val
  | vnan : Val
  | vbool : Bool → Val
  | vint : Int → Val
  | vfloat : Rat → Val
  | vstr : String → Val
  | vdict : List (String × Val) → Val
  | vlist : List Val → Val

/-- A Python dict (and equally a flat output row): keys with values, in
insertion order. -/
abbrev Fields := List (String × Val)

/-- `d[k]` as an option: the first binding of `k` (Python dicts have unique
keys, so first = only). -/
def dlookup (d : Fields) (k : String) : Option Val :=
  match d with
  | [] => none
  | (k', v) :: rest => if k' = k then some v else dlookup rest k

/-- `k in d`. -/
def hasKey (d : Fields) (k : String) : Bool :=
  (dlookup d k).isSome

/-- `isinstance(v, (dict, list))`. -/
def Val.isContainer : Val → Bool
  | .vdict _ => true
  | .vlist _ => true
  | _ => false

/-- `isinstance(v, dict)`. -/
def Val.isDict : Val → Bool
  | .vdict _ => true
  | _ => false

/-- Setting one key of a dict: replace the existing binding in place, else
append (Python dict update semantics, preserving insertion order). -/
def dset (d : Fields) (k : String) (v : Val) : Fields :=
  match d with
  | [] => [(k, v)]
  | (k', v') :: rest => if k' = k then (k, v) :: rest else (k', v') :: dset rest k v

/-- A dict display with a splat, `{... base ..., **extra}`: each binding of
`extra` is written into `base` in order. -/
def dsplat (base : Fields) (extra : Fields) : Fields :=
  extra.foldl (fun acc kv => dset acc kv.1 kv.2) base

/-- Remove every binding of key `k` (used to state "field treated as
absent"). -/
def deleteKey (d : Fields) (k : String) : Fields :=
  d.filter (fun kv => !(kv.1 == k))

/-- The scalar-field comprehension the normalizers share:
`{k: v for k, v in data.items() if not isinstance(v, (dict, list)) and k not in excluded}`. -/
def scalarFields (data : Fields) (excluded : List String) : Fields :=
  data.filter (fun kv => !kv.2.isContainer && !excluded.contains kv.1)

/-- The fresh-id supply standing in for `str(uuid.uuid4())`: the `g`-th draw.
Injective, so distinct draws are distinct strings. -/
def uuidStr (g : Nat) : String :=
  String.mk ('u' :: List.replicate g 'i')

theorem uuidStr_injective : Function.Injective uuidStr := by
  intro a b h
  have hdata : 'u' :: List.replicate a 'i' = 'u' :: List.replicate b 'i' :=
    congrArg String.data h
  have hrep : List.replicate a 'i' = List.replicate b 'i' := by
    simpa using hdata
  simpa using congrArg List.length hrep

/-- `float(v)` on the values that can reach it in the source (`None` and
`NaN` are filtered before the call; numeric-string parsing unmodelled). -/
def pyFloat : Val → Except String Val
  | .vint n => .ok (.vfloat (n : Rat))
  | .vfloat q => .ok (.vfloat q)
  | .vbool b => .ok (.vfloat (if b then 1 else 0))
  | .vnan => .ok .vnan
  | _ => .error "TypeError: float() argument"

/-- `np.isnan(v)`: defined on numbers and bools, a `TypeError` otherwise. -/
def npIsNan : Val → Except String Bool
  | .vnan => .ok true
  | .vint _ => .ok false
  | .vfloat _ => .ok false
  | .vbool _ => .ok false
  | _ => .error "TypeError: isnan"

/-- Treating a value as a dict (`.items()` access): `AttributeError` on
anything else. -/
def asDict : Val → Except String Fields
  | .vdict m => .ok m
  | _ => .error "AttributeError: items"

/-- `v is None`. -/
def isNoneVal : Val → Bool
  | .vnull => true
  | _ => false

/-! ## The normalizers (`src/oura_etl/transformers.py`)

Each `_normalize_*` method is embedded with its exact control flow:
the scalar comprehension, the (guarded or unguarded) nested-field blocks,
the per-element sample loop, and the evaluation order inside the dict
displays (`'id': str(uuid.uuid4())` is drawn first, then `data['id']` is
read — so a missing `'id'` raises `KeyError` there). -/

/-- The shared contributors block of `_normalize_activity_data`,
`_normalize_readiness_data` and `_normalize_daily_sleep`:

```
if 'contributors' in data:
    contributors = data['contributors']
    contributors_data = {'id': str(uuid.uuid4()), fkName: data['id'], **contributors}
```

Note there is no `isinstance(contributors, dict)` guard: unpacking a
non-mapping with `**` raises `TypeError`. -/
def contribSplat (fkName : String) (data : Fields) (g : Nat) :
    Except String (Option Fields × Nat) :=
  match dlookup data "contributors" with
  | none => .ok (none, g)
  | some contributors =>
    match dlookup data "id" with
    | none => .error "KeyError: id"
    | some pid =>
      match contributors with
      | .vdict m =>
        .ok (some (dsplat [("id", .vstr (uuidStr g)), (fkName, pid)] m), g + 1)
      | _ => .error "TypeError: argument is not a mapping"

/-- The per-element loop over a sample series' `items`:

```
for i, value in enumerate(items):
    if value is not None and not np.isnan(value):
        rows.append({'id': str(uuid.uuid4()), fkName: data['id'],
                     'timestamp': timestamp, 'interval': interval,
                     'value': float(value)})
```
-/
def sampleLoop (fkName : String) (data : Fields) (ts iv : Val) :
    List Val → Nat → Except String (List Fields × Nat)
  | [], g => .ok ([], g)
  | v :: rest, g =>
    if isNoneVal v then sampleLoop fkName data ts iv rest g
    else
      match npIsNan v with
      | .error e => .error e
      | .ok true => sampleLoop fkName data ts iv rest g
      | .ok false =>
        match dlookup data "id" with
        | none => .error "KeyError: id"
        | some pid =>
          match pyFloat v with
          | .error e => .error e
          | .ok fv =>
            match sampleLoop fkName data ts iv rest (g + 1) with
            | .error e => .error e
            | .ok (rows, g') =>
              .ok ([("id", .vstr (uuidStr g)), (fkName, pid),
                    ("timestamp", ts), ("interval", iv), ("value", fv)] :: rows, g')

/-- One sample-series dict: read `timestamp`, `interval` and `items` (with
`.get` defaults) and run the per-element loop. -/
def sampleRows (fkName : String) (data : Fields) (series : Fields) (g : Nat) :
    Except String (List Fields × Nat) :=
  let ts := (dlookup series "timestamp").getD .vnull
  let iv := (dlookup series "interval").getD .vnull
  match (dlookup series "items").getD (.vlist []) with
  | .vlist vals => sampleLoop fkName data ts iv vals g
  | .vdict m => sampleLoop fkName data ts iv (m.map fun kv => .vstr kv.1) g
  | .vstr s => sampleLoop fkName data ts iv (s.data.map fun c => .vstr (String.mk [c])) g
  | _ => .error "TypeError: not iterable"

/-- A guarded sample-series block:
`if seriesName in data and isinstance(data[seriesName], dict): ...`
A present non-dict value is skipped (treated as absent). -/
def seriesStep (fkName seriesName : String) (data : Fields) (g : Nat) :
    Except String (List Fields × Nat) :=
  match dlookup data seriesName with
  | some (.vdict series) => sampleRows fkName data series g
  | _ => .ok ([], g)

/-- `OuraTransformer._normalize_activity_data`. -/
def normalize_activity_data (data : Fields) (g : Nat) :
    Except String (Fields × Option Fields × List Fields × Nat) :=
  let activity := scalarFields data ["contributors", "met"]
  match contribSplat "daily_activity_id" data g with
  | .error e => .error e
  | .ok (contribs, g1) =>
    match seriesStep "daily_activity_id" "met" data g1 with
    | .error e => .error e
    | .ok (metrics, g2) => .ok (activity, contribs, metrics, g2)

/-- `OuraTransformer._normalize_sleep_data`. -/
def normalize_sleep_data (data : Fields) (g : Nat) :
    Except String (Fields × List Fields × List Fields × Nat) :=
  let sleep := scalarFields data ["heart_rate", "hrv"]
  match seriesStep "sleep_id" "heart_rate" data g with
  | .error e => .error e
  | .ok (hr, g1) =>
    match seriesStep "sleep_id" "hrv" data g1 with
    | .error e => .error e
    | .ok (hrv, g2) => .ok (sleep, hr, hrv, g2)

/-- `OuraTransformer._normalize_readiness_data`. -/
def normalize_readiness_data (data : Fields) (g : Nat) :
    Except String (Fields × Option Fields × Nat) :=
  match contribSplat "daily_readiness_id" data g with
  | .error e => .error e
  | .ok (contribs, g1) => .ok (scalarFields data ["contributors"], contribs, g1)

/-- `OuraTransformer._normalize_daily_sleep`. -/
def normalize_daily_sleep (data : Fields) (g : Nat) :
    Except String (Fields × Option Fields × Nat) :=
  match contribSplat "daily_sleep_id" data g with
  | .error e => .error e
  | .ok (contribs, g1) => .ok (scalarFields data ["contributors"], contribs, g1)

/-- `OuraTransformer._normalize_spo2_data`.  The percentage block is guarded
by `isinstance(data['spo2_percentage'], dict)`; note `timestamp` is read
from the outer item, as in the source. -/
def normalize_spo2_data (data : Fields) (g : Nat) :
    Except String (Fields × Option Fields × Nat) :=
  let spo2 := scalarFields data ["spo2_percentage"]
  match dlookup data "spo2_percentage" with
  | some (.vdict percentage) =>
    match dlookup data "id" with
    | none => .error "KeyError: id"
    | some pid =>
      .ok (spo2,
           some [("id", .vstr (uuidStr g)), ("daily_spo2_id", pid),
                 ("average", (dlookup percentage "average").getD .vnull),
                 ("timestamp", (dlookup data "timestamp").getD .vnull)],
           g + 1)
  | _ => .ok (spo2, none, g)

/-- `OuraTransformer._normalize_resilience_data`: the contributors block is
unguarded (`if 'contributors' in data:`), and the child row carries exactly
the three fixed columns read with `contributors.get(..., 0)` and coerced by
`float(...)`; `.get` on a non-mapping raises `AttributeError`. -/
def normalize_resilience_data (data : Fields) (g : Nat) :
    Except String (Fields × Option Fields × Nat) :=
  let res := scalarFields data ["contributors"]
  match dlookup data "contributors" with
  | none => .ok (res, none, g)
  | some contributors =>
    match dlookup data "id" with
    | none => .error "KeyError: id"
    | some pid =>
      match contributors with
      | .vdict m =>
        match pyFloat ((dlookup m "sleep_recovery").getD (.vint 0)) with
        | .error e => .error e
        | .ok sr =>
          match pyFloat ((dlookup m "daytime_recovery").getD (.vint 0)) with
          | .error e => .error e
          | .ok dr =>
            match pyFloat ((dlookup m "stress").getD (.vint 0)) with
            | .error e => .error e
            | .ok st =>
              .ok (res,
                   some [("id", .vstr (uuidStr g)), ("daily_resilience_id", pid),
                         ("sleep_recovery", sr), ("daytime_recovery", dr),
                         ("stress", st)],
                   g + 1)
      | _ => .error "AttributeError: get"

/-! ## The batch assembler (`OuraTransformer.transform_to_parquet`)

The method is modelled as the function from a raw payload to the list of
(file-name-prefix, rows) batches it writes, in write order; the parquet
encoding and the timestamped file names are the excluded `ColumnStore`
collaborator.  There is no `try`/`except` around the per-item loops: any
exception raised while normalizing one item aborts the whole call. -/

/-- `raw_data.get('data', [])` followed by the `if not items` truthiness
test and `for item in items` iteration: a missing key or a falsy value
yields no items; iterating a truthy dict yields its keys, a truthy string
its characters, and any other truthy non-list raises `TypeError`. -/
def extractItems (raw : Fields) : Except String (List Val) :=
  match dlookup raw "data" with
  | none => .ok []
  | some (.vlist l) => .ok l
  | some .vnull => .ok []
  | some .vnan => .error "TypeError: not iterable"
  | some (.vbool b) => if b then .error "TypeError: not iterable" else .ok []
  | some (.vint n) => if n = 0 then .ok [] else .error "TypeError: not iterable"
  | some (.vfloat q) => if q = 0 then .ok [] else .error "TypeError: not iterable"
  | some (.vstr s) => .ok (s.data.map fun c => .vstr (String.mk [c]))
  | some (.vdict m) => .ok (m.map fun kv => .vstr kv.1)

/-- `if records: saved_files.append(...)`: a batch is written only when its
record list is non-empty. -/
def addBatch (name : String) (rows : List Fields) (acc : List (String × List Fields)) :
    List (String × List Fields) :=
  if rows.isEmpty then acc else acc ++ [(name, rows)]

/-- The `daily_activity` branch's per-item loop. -/
def activityLoop : List Val → Nat →
    Except String ((List Fields × List Fields × List Fields) × Nat)
  | [], g => .ok (([], [], []), g)
  | it :: rest, g =>
    match asDict it with
    | .error e => .error e
    | .ok d =>
      match normalize_activity_data d g with
      | .error e => .error e
      | .ok (a, copt, ms, g1) =>
        match activityLoop rest g1 with
        | .error e => .error e
        | .ok ((acts, cs, mss), g2) =>
          .ok ((a :: acts, (match copt with | some c => c :: cs | none => cs),
                ms ++ mss), g2)

/-- The `sleep` branch's per-item loop. -/
def sleepLoop : List Val → Nat →
    Except String ((List Fields × List Fields × List Fields) × Nat)
  | [], g => .ok (([], [], []), g)
  | it :: rest, g =>
    match asDict it with
    | .error e => .error e
    | .ok d =>
      match normalize_sleep_data d g with
      | .error e => .error e
      | .ok (s, hr, hrv, g1) =>
        match sleepLoop rest g1 with
        | .error e => .error e
        | .ok ((ss, hrs, hrvs), g2) => .ok ((s :: ss, hr ++ hrs, hrv ++ hrvs), g2)

/-- The per-item loop shared by the primary-plus-optional-contributor
branches (`daily_readiness`, `daily_sleep`, `daily_spo2`,
`daily_resilience`), parameterized by the branch's normalizer. -/
def pairLoop (step : Fields → Nat → Except String (Fields × Option Fields × Nat)) :
    List Val → Nat → Except String ((List Fields × List Fields) × Nat)
  | [], g => .ok (([], []), g)
  | it :: rest, g =>
    match asDict it with
    | .error e => .error e
    | .ok d =>
      match step d g with
      | .error e => .error e
      | .ok (p, copt, g1) =>
        match pairLoop step rest g1 with
        | .error e => .error e
        | .ok ((ps, cs), g2) =>
          .ok ((p :: ps, match copt with | some c => c :: cs | none => cs), g2)

/-- The `else` fallback: `[{k: v for k, v in item.items() if not
isinstance(v, (dict, list))} for item in items]` — no per-type branch, no
child batches, written unconditionally. -/
def fallbackLoop : List Val → Except String (List Fields)
  | [] => .ok []
  | it :: rest =>
    match asDict it with
    | .error e => .error e
    | .ok d =>
      match fallbackLoop rest with
      | .error e => .error e
      | .ok rows => .ok (scalarFields d [] :: rows)

/-- `OuraTransformer.transform_to_parquet` as the batches it writes.  The
branch names are the filename prefixes of the source, which the loader maps
to table names. -/
def transform_to_parquet (data_type : String) (raw : Fields) (g : Nat) :
    Except String (List (String × List Fields) × Nat) :=
  match extractItems raw with
  | .error e => .error e
  | .ok items =>
    if items.isEmpty then .ok ([], g)
    else if data_type = "daily_activity" then
      match activityLoop items g with
      | .error e => .error e
      | .ok ((acts, contribs, mets), g') =>
        .ok (addBatch "activity_metrics" mets
              (addBatch "activity_contributors" contribs
                (addBatch "daily_activity" acts [])), g')
    else if data_type = "sleep" then
      match sleepLoop items g with
      | .error e => .error e
      | .ok ((ss, hrs, hrvs), g') =>
        .ok (addBatch "hrv_samples" hrvs
              (addBatch "heart_rate_samples" hrs
                (addBatch "sleep" ss [])), g')
    else if data_type = "daily_readiness" then
      match pairLoop normalize_readiness_data items g with
      | .error e => .error e
      | .ok ((ps, cs), g') =>
        .ok (addBatch "readiness_contributors" cs
              (addBatch "daily_readiness" ps []), g')
    else if data_type = "daily_sleep" then
      match pairLoop normalize_daily_sleep items g with
      | .error e => .error e
      | .ok ((ps, cs), g') =>
        .ok (addBatch "daily_sleep_contributors" cs
              (addBatch "daily_sleep" ps []), g')
    else if data_type = "daily_spo2" then
      match pairLoop normalize_spo2_data items g with
      | .error e => .error e
      | .ok ((ps, cs), g') =>
        .ok (addBatch "spo2_percentage" cs
              (addBatch "daily_spo2" ps []), g')
    else if data_type = "daily_resilience" then
      match pairLoop normalize_resilience_data items g with
      | .error e => .error e
      | .ok ((ps, cs), g') =>
        .ok (addBatch "resilience_contributors" cs
              (addBatch "daily_resilience" ps []), g')
    else
      match fallbackLoop items with
      | .error e => .error e
      | .ok rows => .ok ([(data_type, rows)], g)

/-! ## The persistence layer

`Database.save_records` (`src/oura_etl/database.py`) upserts SQLAlchemy
model instances with `session.merge`; every model here has a `String`
primary-key column `id`, so a stored row is a string key plus its full
column set, and merging replaces the whole row of a matching key.

`OuraLoader.load_parquet` (`src/oura_etl/loader.py`) instead writes with
`DataFrame.to_sql(..., if_exists='append')` against the already-created
table: a plain `INSERT` that raises `IntegrityError` on a duplicate primary
key.  Per the §4.4/§6 collaborator contract the batch is atomic: on error
nothing of the batch is committed. -/

/-- A persisted row: the string primary key and the full column set. -/
structure DbRow where
  id : String
  cols : Fields

/-- `session.merge(record)`: replace the row with the same primary key in
place, or append the record if no row matches. -/
def merge1 (table : List DbRow) (r : DbRow) : List DbRow :=
  if table.any (fun t => t.id == r.id) then
    table.map (fun t => if t.id == r.id then r else t)
  else table ++ [r]

/-- `Database.save_records`: merge each record in order, then commit. -/
def save_records (table : List DbRow) (records : List DbRow) : List DbRow :=
  records.foldl merge1 table

/-- One `INSERT` of the append path: a duplicate primary key is an
`IntegrityError`. -/
def insert1 (table : List DbRow) (r : DbRow) : Except String (List DbRow) :=
  if table.any (fun t => t.id == r.id) then
    .error "IntegrityError: UNIQUE constraint failed"
  else .ok (table ++ [r])

/-- `DataFrame.to_sql(..., if_exists='append')` as used by
`OuraLoader.load_parquet`: insert the rows in order; any failure fails the
whole (atomic) batch and the caller's table is unchanged. -/
def to_sql_append (table : List DbRow) : List DbRow → Except String (List DbRow)
  | [] => .ok table
  | r :: rest =>
    match insert1 table r with
    | .error e => .error e
    | .ok t => to_sql_append t rest

/-! ## Association-list lemmas -/

theorem dlookup_eq_none_iff {d : Fields} {k : String} :
    dlookup d k = none ↔ k ∉ d.map Prod.fst := by
  induction d with
  | nil => simp [dlookup]
  | cons kv rest ih =>
    obtain ⟨k', v⟩ := kv
    by_cases h : k' = k
    · subst h
      simp [dlookup]
    · simp [dlookup, h, ih, Ne.symm h]

theorem dlookup_isSome_iff_mem {d : Fields} {k : String} :
    (dlookup d k).isSome = true ↔ k ∈ d.map Prod.fst := by
  rw [Option.isSome_iff_ne_none, ne_eq, dlookup_eq_none_iff, not_not]

theorem hasKey_iff_mem {d : Fields} {k : String} :
    hasKey d k = true ↔ k ∈ d.map Prod.fst := by
  rw [hasKey, dlookup_isSome_iff_mem]

theorem dlookup_mem {d : Fields} {k : String} {v : Val}
    (h : dlookup d k = some v) : (k, v) ∈ d := by
  induction d with
  | nil => simp [dlookup] at h
  | cons kv rest ih =>
    obtain ⟨k', v'⟩ := kv
    by_cases hk : k' = k
    · subst hk
      simp [dlookup] at h
      simp [h]
    · simp [dlookup, hk] at h
      exact List.mem_cons_of_mem _ (ih h)

theorem dlookup_dset_self {d : Fields} {k : String} {v : Val} :
    dlookup (dset d k v) k = some v := by
  induction d with
  | nil => simp [dset, dlookup]
  | cons kv rest ih =>
    obtain ⟨k', v'⟩ := kv
    by_cases h : k' = k <;> simp [dset, dlookup, h, ih]

theorem dlookup_dset_ne {d : Fields} {k k' : String} {v : Val} (h : k' ≠ k) :
    dlookup (dset d k v) k' = dlookup d k' := by
  induction d with
  | nil => simp [dset, dlookup, Ne.symm h]
  | cons kv rest ih =>
    obtain ⟨k0, v0⟩ := kv
    by_cases hk : k0 = k
    · subst hk
      simp [dset, dlookup, Ne.symm h]
    · simp only [dset, if_neg hk, dlookup]
      by_cases hk' : k0 = k'
      · simp [hk']
      · simp [hk', ih]

theorem dset_cons_self {rest : Fields} {k : String} {v v0 : Val} :
    dset ((k, v0) :: rest) k v = (k, v) :: rest := by
  simp [dset]

theorem dset_cons_ne {rest : Fields} {k0 k : String} {v v0 : Val} (h : k0 ≠ k) :
    dset ((k0, v0) :: rest) k v = (k0, v0) :: dset rest k v := by
  simp [dset, h]

theorem mem_keys_dset {d : Fields} {k a : String} {v : Val} :
    a ∈ (dset d k v).map Prod.fst ↔ a ∈ d.map Prod.fst ∨ a = k := by
  induction d with
  | nil => simp [dset]
  | cons kv rest ih =>
    obtain ⟨k0, v0⟩ := kv
    by_cases hk : k0 = k
    · subst hk
      rw [dset_cons_self]
      simp only [List.map_cons, List.mem_cons]
      tauto
    · rw [dset_cons_ne hk]
      simp only [List.map_cons, List.mem_cons, ih]
      tauto

theorem dsplat_cons {b : Fields} {k0 : String} {v0 : Val} {rest : Fields} :
    dsplat b ((k0, v0) :: rest) = dsplat (dset b k0 v0) rest := rfl

theorem dlookup_dsplat_not_mem {m : Fields} {b : Fields} {k : String}
    (h : k ∉ m.map Prod.fst) : dlookup (dsplat b m) k = dlookup b k := by
  induction m generalizing b with
  | nil => rfl
  | cons kv rest ih =>
    obtain ⟨k0, v0⟩ := kv
    rw [List.map_cons, List.mem_cons, not_or] at h
    rw [dsplat_cons, ih h.2, dlookup_dset_ne h.1]

theorem dlookup_dsplat_mem {m : Fields} {b : Fields} {k : String} {v : Val}
    (hnd : (m.map Prod.fst).Nodup) (h : dlookup m k = some v) :
    dlookup (dsplat b m) k = some v := by
  induction m generalizing b with
  | nil => simp [dlookup] at h
  | cons kv rest ih =>
    obtain ⟨k0, v0⟩ := kv
    rw [List.map_cons, List.nodup_cons] at hnd
    rw [dsplat_cons]
    by_cases hk : k0 = k
    · subst hk
      simp only [dlookup, if_pos rfl] at h
      injection h with h
      subst h
      rw [dlookup_dsplat_not_mem hnd.1, dlookup_dset_self]
    · simp only [dlookup, if_neg hk] at h
      exact ih hnd.2 h

theorem mem_keys_dsplat {m : Fields} {b : Fields} {a : String} :
    a ∈ (dsplat b m).map Prod.fst ↔ a ∈ b.map Prod.fst ∨ a ∈ m.map Prod.fst := by
  induction m generalizing b with
  | nil => simp [dsplat]
  | cons kv rest ih =>
    obtain ⟨k0, v0⟩ := kv
    rw [dsplat_cons, ih, mem_keys_dset]
    simp only [List.map_cons, List.mem_cons]
    tauto

theorem dlookup_filter {d : Fields} {p : String × Val → Bool} {k : String} {v : Val}
    (h : dlookup d k = some v) (hp : p (k, v) = true) :
    dlookup (d.filter p) k = some v := by
  induction d with
  | nil => simp [dlookup] at h
  | cons kv rest ih =>
    obtain ⟨k0, v0⟩ := kv
    simp only [dlookup] at h
    rw [List.filter_cons]
    by_cases hk : k0 = k
    · subst hk
      rw [if_pos rfl] at h
      injection h with h
      subst h
      rw [if_pos hp]
      simp [dlookup]
    · rw [if_neg hk] at h
      by_cases hc : p (k0, v0) = true
      · rw [if_pos hc]
        simp only [dlookup, if_neg hk]
        exact ih h
      · rw [if_neg hc]
        exact ih h

theorem dlookup_filter_isSome_iff {d : Fields} {p : String × Val → Bool} {k : String} :
    (dlookup (d.filter p) k).isSome = true ↔ ∃ v, (k, v) ∈ d ∧ p (k, v) = true := by
  rw [dlookup_isSome_iff_mem]
  constructor
  · intro h
    rw [List.mem_map] at h
    obtain ⟨kv, hmem, hfst⟩ := h
    obtain ⟨k1, v1⟩ := kv
    cases hfst
    exact ⟨v1, List.mem_of_mem_filter hmem, List.of_mem_filter hmem⟩
  · rintro ⟨v, hm, hp⟩
    rw [List.mem_map]
    exact ⟨(k, v), List.mem_filter.mpr ⟨hm, hp⟩, rfl⟩

theorem dlookup_deleteKey_ne {d : Fields} {k k' : String} (h : k' ≠ k) :
    dlookup (deleteKey d k) k' = dlookup d k' := by
  induction d with
  | nil => rfl
  | cons kv rest ih =>
    obtain ⟨k0, v0⟩ := kv
    rw [deleteKey, List.filter_cons]
    by_cases hk : k0 = k
    · subst hk
      rw [if_neg (by simp)]
      simp only [dlookup]
      rw [if_neg (Ne.symm h)]
      exact ih
    · rw [if_pos (by simp [hk])]
      simp only [dlookup]
      by_cases hk' : k0 = k'
      · rw [if_pos hk', if_pos hk']
      · rw [if_neg hk', if_neg hk']
        exact ih

theorem dlookup_deleteKey_self {d : Fields} {k : String} :
    dlookup (deleteKey d k) k = none := by
  rw [dlookup_eq_none_iff]
  intro hmem
  rw [List.mem_map] at hmem
  obtain ⟨kv, hmem, hfst⟩ := hmem
  have hp := List.of_mem_filter hmem
  rw [hfst] at hp
  simp at hp

/-! ## Lemmas about the persistence layer -/

theorem insert1_ok {table : List DbRow} {r : DbRow} {t' : List DbRow}
    (h : insert1 table r = .ok t') : t' = table ++ [r] ∧ ∀ t ∈ table, t.id ≠ r.id := by
  rw [insert1] at h
  by_cases hc : table.any (fun t => t.id == r.id) = true
  · rw [if_pos hc] at h
    cases h
  · rw [if_neg hc] at h
    injection h with h
    refine ⟨h.symm, ?_⟩
    intro t ht hid
    exact hc (List.any_eq_true.mpr ⟨t, ht, by simp [hid]⟩)

theorem to_sql_append_dup_error {rows : List DbRow} :
    ∀ {table : List DbRow}, (∃ r ∈ rows, ∃ t ∈ table, t.id = r.id) →
      ∃ e, to_sql_append table rows = .error e := by
  induction rows with
  | nil =>
    intro table h
    obtain ⟨r, hr, _⟩ := h
    simp at hr
  | cons r0 rest ih =>
    intro table h
    obtain ⟨r, hr, t, ht, hid⟩ := h
    rw [to_sql_append]
    cases hins : insert1 table r0 with
    | error e => exact ⟨e, rfl⟩
    | ok t' =>
      obtain ⟨ht', hno⟩ := insert1_ok hins
      subst ht'
      rcases List.mem_cons.mp hr with heq | hrest
      · exact absurd hid (heq ▸ hno t ht)
      · exact ih ⟨r, hrest, t, List.mem_append_left _ ht, hid⟩

theorem merge1_insert {table : List DbRow} {r : DbRow}
    (h : ∀ t ∈ table, t.id ≠ r.id) : merge1 table r = table ++ [r] := by
  rw [merge1, if_neg]
  simp only [List.any_eq_true, not_exists]
  intro t
  simp only [not_and]
  intro ht
  simp [h t ht]

theorem filter_eq_nil_of_no_id {table : List DbRow} {i : String}
    (h : ∀ t ∈ table, t.id ≠ i) :
    table.filter (fun t => t.id == i) = [] := by
  rw [List.filter_eq_nil_iff]
  intro t ht
  simp [h t ht]

theorem merge_replace_filter {r : DbRow} :
    ∀ {table : List DbRow}, (table.map DbRow.id).Nodup →
      table.any (fun t => t.id == r.id) = true →
      (table.map (fun t => if t.id == r.id then r else t)).filter
        (fun t => t.id == r.id) = [r] := by
  intro table
  induction table with
  | nil =>
    intro _ h
    simp at h
  | cons t0 rest ih =>
    intro hnd h
    rw [List.map_cons, List.nodup_cons] at hnd
    rw [List.map_cons]
    by_cases h0 : t0.id = r.id
    · have hhead : (t0.id == r.id) = true := by simp [h0]
      rw [if_pos hhead, List.filter_cons, if_pos (by simp)]
      have hrest : ∀ t ∈ rest, t.id ≠ r.id := by
        intro t ht he
        exact hnd.1 (List.mem_map.mpr ⟨t, ht, by rw [he, h0]⟩)
      have hmap : rest.map (fun t => if t.id == r.id then r else t) = rest := by
        conv_rhs => rw [show rest = rest.map id from (List.map_id rest).symm]
        apply List.map_congr_left
        intro t ht
        simp [hrest t ht]
      rw [hmap, filter_eq_nil_of_no_id hrest]
    · have hhead : ¬((t0.id == r.id) = true) := by simp [h0]
      rw [if_neg hhead, List.filter_cons, if_neg hhead]
      apply ih hnd.2
      rcases List.any_eq_true.mp h with ⟨t, ht, hp⟩
      rcases List.mem_cons.mp ht with heq | ht'
      · exact absurd (heq ▸ hp) hhead
      · exact List.any_eq_true.mpr ⟨t, ht', hp⟩

theorem merge1_filter {table : List DbRow} {r : DbRow}
    (hnd : (table.map DbRow.id).Nodup) :
    (merge1 table r).filter (fun t => t.id == r.id) = [r] := by
  rw [merge1]
  by_cases h : table.any (fun t => t.id == r.id) = true
  · rw [if_pos h]
    exact merge_replace_filter hnd h
  · rw [if_neg h]
    rw [List.filter_append, filter_eq_nil_of_no_id, List.nil_append]
    · simp
    · intro t ht hid
      exact h (List.any_eq_true.mpr ⟨t, ht, by simp [hid]⟩)

theorem merge1_ids {table : List DbRow} {r : DbRow} :
    (table.map (fun t => if t.id == r.id then r else t)).map DbRow.id
      = table.map DbRow.id := by
  rw [List.map_map]
  apply List.map_congr_left
  intro t _
  by_cases ht : t.id = r.id
  · simp [ht]
  · simp [ht]

theorem merge1_nodup {table : List DbRow} {r : DbRow}
    (hnd : (table.map DbRow.id).Nodup) : ((merge1 table r).map DbRow.id).Nodup := by
  rw [merge1]
  by_cases h : table.any (fun t => t.id == r.id) = true
  · rw [if_pos h, merge1_ids]
    exact hnd
  · rw [if_neg h, List.map_append]
    simp only [List.map_cons, List.map_nil]
    rw [List.nodup_append]
    refine ⟨hnd, List.nodup_singleton _, ?_⟩
    intro a ha hb
    simp only [List.mem_singleton] at hb
    subst hb
    rw [List.mem_map] at ha
    obtain ⟨t, ht, hid⟩ := ha
    exact h (List.any_eq_true.mpr ⟨t, ht, by simp [hid]⟩)

/-! ## Claim C1 — primary loads and upsert-by-primary-key -/

/-- **C1 counterexample.**  The claim says loading a primary record `R` and
then a modified copy with the same `id` leaves one row with the new columns.
On the load path the pipeline actually runs (`OuraLoader.load_parquet`,
which writes with `to_sql(..., if_exists='append')`), re-loading `id = "a1"`
raises `IntegrityError` and the batch fails, leaving the OLD row's columns
in place — not the new ones. -/
theorem c1_counterexample :
    to_sql_append ([] : List DbRow)
        [⟨"a1", [("day", .vstr "2024-01-01"), ("score", .vint 80)]⟩]
      = .ok [⟨"a1", [("day", .vstr "2024-01-01"), ("score", .vint 80)]⟩]
    ∧ to_sql_append [⟨"a1", [("day", .vstr "2024-01-01"), ("score", .vint 80)]⟩]
        [⟨"a1", [("day", .vstr "2024-01-01"), ("score", .vint 95)]⟩]
      = .error "IntegrityError: UNIQUE constraint failed" :=
  ⟨rfl, rfl⟩

/-- **C1 amended.**  `Database.save_records` (the `session.merge` path) is an
idempotent upsert-by-primary-key with full column replacement: loading `R`
then `R'` with the same `id` into a table with unique ids leaves exactly one
row under that id, equal to `R'` in full; a record whose id is absent is
inserted.  The parquet load path (`OuraLoader.load_parquet` →
`to_sql(..., if_exists='append')`) is NOT an upsert: a batch containing a
row whose id already exists fails with an error. -/
theorem c1_amended :
    (∀ (table : List DbRow) (R Rp : DbRow), R.id = Rp.id →
        (table.map DbRow.id).Nodup →
        (save_records (save_records table [R]) [Rp]).filter
            (fun t => t.id == Rp.id) = [Rp])
    ∧ (∀ (table : List DbRow) (R : DbRow), (∀ t ∈ table, t.id ≠ R.id) →
        save_records table [R] = table ++ [R])
    ∧ (∀ (table rows : List DbRow), (∃ r ∈ rows, ∃ t ∈ table, t.id = r.id) →
        ∃ e, to_sql_append table rows = .error e) := by
  refine ⟨?_, ?_, ?_⟩
  · intro table R Rp _ hnd
    exact merge1_filter (merge1_nodup hnd)
  · intro table R h
    exact merge1_insert h
  · intro table rows h
    exact to_sql_append_dup_error h

/-- **C1 witness.**  The amended statement at concrete inputs. -/
theorem c1_amended_witness :
    (save_records (save_records [⟨"b", [("x", .vint 1)]⟩]
          [⟨"a1", [("score", .vint 80)]⟩]) [⟨"a1", [("score", .vint 95)]⟩]).filter
        (fun t => t.id == "a1") = [⟨"a1", [("score", .vint 95)]⟩]
    ∧ save_records [⟨"b", [("x", .vint 1)]⟩] [⟨"a1", [("score", .vint 80)]⟩]
        = [⟨"b", [("x", .vint 1)]⟩, ⟨"a1", [("score", .vint 80)]⟩]
    ∧ ∃ e, to_sql_append [⟨"a1", [("score", .vint 80)]⟩]
        [⟨"a1", [("score", .vint 95)]⟩] = .error e := by
  refine ⟨c1_amended.1 [⟨"b", [("x", .vint 1)]⟩] ⟨"a1", [("score", .vint 80)]⟩
      ⟨"a1", [("score", .vint 95)]⟩ rfl (by decide), ?_, ?_⟩
  · exact c1_amended.2.1 [⟨"b", [("x", .vint 1)]⟩] ⟨"a1", [("score", .vint 80)]⟩
      (by intro t ht; simp only [List.mem_singleton] at ht; subst ht; decide)
  · exact c1_amended.2.2 _ _
      ⟨⟨"a1", [("score", .vint 95)]⟩, by simp, ⟨"a1", [("score", .vint 80)]⟩, by simp, rfl⟩

/-! ## Claim C3 — missing `id` as a hard failure -/

/-- **C3 counterexample.**  The claim says an item lacking `id` is a hard
failure regardless of which nested fields it contains.  An id-less
`daily_sleep` item with no nested fields is normalized WITHOUT error into a
primary record that simply has no id. -/
theorem c3_counterexample :
    normalize_daily_sleep [("day", .vstr "2024-01-01"), ("score", .vint 5)] 0
      = .ok ([("day", .vstr "2024-01-01"), ("score", .vint 5)], none, 0) :=
  rfl

/-- **C3 amended.**  For the `daily_sleep` normalizer, an item lacking `id`
signals an error exactly when a `contributors` key is present (the only
point at which the missing key is read); with no `contributors` key the
item is silently flattened. -/
theorem c3_amended (data : Fields) (g : Nat) (h : dlookup data "id" = none) :
    ((∃ e, normalize_daily_sleep data g = .error e) ↔
      hasKey data "contributors" = true) := by
  rw [normalize_daily_sleep, contribSplat]
  cases hc : dlookup data "contributors" with
  | none => simp [hasKey, hc]
  | some v => simp [hasKey, hc, h]

/-- **C3 witness.**  The amended statement at a concrete input. -/
theorem c3_amended_witness :
    (∃ e, normalize_daily_sleep
        [("day", .vstr "d"), ("contributors", .vdict [("timing", .vint 1)])] 0
      = .error e) ↔
      hasKey [("day", .vstr "d"), ("contributors", .vdict [("timing", .vint 1)])]
        "contributors" = true :=
  c3_amended _ 0 rfl

/-! ## Claim C4 — malformed nested fields -/

theorem scalarFields_deleteKey {data : Fields} {k : String} {excl : List String}
    (hk : k ∈ excl) :
    scalarFields (deleteKey data k) excl = scalarFields data excl := by
  induction data with
  | nil => rfl
  | cons kv rest ih =>
    obtain ⟨k0, v0⟩ := kv
    rw [deleteKey, List.filter_cons]
    by_cases h : k0 = k
    · subst h
      rw [if_neg (by simp)]
      have hdrop : scalarFields ((k0, v0) :: rest) excl = scalarFields rest excl := by
        rw [scalarFields, List.filter_cons, if_neg (by simp [hk])]
        rfl
      rw [hdrop]
      exact ih
    · rw [if_pos (by simp [h])]
      show scalarFields ((k0, v0) :: deleteKey rest k) excl
        = scalarFields ((k0, v0) :: rest) excl
      rw [scalarFields, List.filter_cons, scalarFields, List.filter_cons]
      rw [show List.filter (fun kv => !kv.2.isContainer && !excl.contains kv.1)
            (deleteKey rest k)
          = List.filter (fun kv => !kv.2.isContainer && !excl.contains kv.1) rest
        from ih]

theorem sampleLoop_congr {fk : String} {d1 d2 : Fields} {ts iv : Val}
    (h : dlookup d1 "id" = dlookup d2 "id") :
    ∀ (vals : List Val) (g : Nat),
      sampleLoop fk d1 ts iv vals g = sampleLoop fk d2 ts iv vals g := by
  intro vals
  induction vals with
  | nil => intro g; rfl
  | cons v rest ih =>
    intro g
    simp only [sampleLoop, h, ih]

theorem sampleRows_congr {fk : String} {d1 d2 : Fields} {series : Fields} {g : Nat}
    (h : dlookup d1 "id" = dlookup d2 "id") :
    sampleRows fk d1 series g = sampleRows fk d2 series g := by
  rw [sampleRows, sampleRows]
  cases (dlookup series "items").getD (.vlist []) <;> simp [sampleLoop_congr h]

/-- **C4 counterexample.**  The claim says a present-but-non-mapping nested
field is treated as absent with no error.  A non-mapping `contributors`
value makes `_normalize_activity_data` raise (the `**` unpack has no
`isinstance` guard). -/
theorem c4_counterexample :
    normalize_activity_data [("id", .vstr "a1"), ("contributors", .vint 5)] 0
      = .error "TypeError: argument is not a mapping" :=
  rfl

/-- **C4 amended.**  The tolerance holds for the sample-series fields, which
are guarded by `isinstance(..., dict)`: a non-dict `heart_rate` value makes
`_normalize_sleep_data` behave exactly as if the key were absent (same
primary record, no child rows, no error, no id drawn).  It does NOT hold for
`contributors`: a present non-mapping `contributors` value raises and aborts
the item. -/
theorem c4_amended :
    (∀ (data : Fields) (g : Nat) (v : Val), dlookup data "heart_rate" = some v →
        v.isDict = false →
        normalize_sleep_data data g
          = normalize_sleep_data (deleteKey data "heart_rate") g)
    ∧ (∀ (data : Fields) (g : Nat) (v : Val), dlookup data "contributors" = some v →
        v.isDict = false → (dlookup data "id").isSome = true →
        ∃ e, normalize_activity_data data g = .error e) := by
  constructor
  · intro data g v hhr hdict
    have h1 : seriesStep "sleep_id" "heart_rate" data g = .ok ([], g) := by
      rw [seriesStep, hhr]
      cases v <;> simp [Val.isDict] at hdict ⊢
    have h2 : seriesStep "sleep_id" "heart_rate" (deleteKey data "heart_rate") g
        = .ok ([], g) := by
      rw [seriesStep, dlookup_deleteKey_self]
    have h3 : ∀ g' : Nat, seriesStep "sleep_id" "hrv" (deleteKey data "heart_rate") g'
        = seriesStep "sleep_id" "hrv" data g' := by
      intro g'
      rw [seriesStep, seriesStep, dlookup_deleteKey_ne (by decide)]
      cases hv : dlookup data "hrv" with
      | none => rfl
      | some w =>
        cases w <;>
          simp [sampleRows_congr (dlookup_deleteKey_ne (by decide) :
            dlookup (deleteKey data "heart_rate") "id" = dlookup data "id")]
    rw [normalize_sleep_data, normalize_sleep_data, h1, h2]
    simp only [h3 g, scalarFields_deleteKey
      (show "heart_rate" ∈ (["heart_rate", "hrv"] : List String) by decide)]
  · intro data g v hc hdict hid
    rw [Option.isSome_iff_exists] at hid
    obtain ⟨pid, hpid⟩ := hid
    refine ⟨"TypeError: argument is not a mapping", ?_⟩
    have hcs : contribSplat "daily_activity_id" data g
        = .error "TypeError: argument is not a mapping" := by
      rw [contribSplat, hc, hpid]
      cases v <;> simp [Val.isDict] at hdict ⊢
    rw [normalize_activity_data, hcs]

/-- **C4 witness.**  The amended statement at concrete inputs. -/
theorem c4_amended_witness :
    normalize_sleep_data [("id", .vstr "s1"), ("heart_rate", .vint 7)] 0
      = normalize_sleep_data
          (deleteKey [("id", .vstr "s1"), ("heart_rate", .vint 7)] "heart_rate") 0
    ∧ ∃ e, normalize_activity_data [("id", .vstr "a1"), ("contributors", .vstr "x")] 0
        = .error e :=
  ⟨c4_amended.1 _ 0 (.vint 7) rfl rfl,
   c4_amended.2 _ 0 (.vstr "x") rfl rfl rfl⟩

/-! ## Claim C5 — the contributor child row -/

/-- **C5 counterexample.**  The claim says the contributor child row carries
one column for every key of the nested mapping, values copied unchanged.
The resilience normalizer (one of the claim's cited sites) instead builds a
fixed three-column row: the extra key `extra` is dropped, `sleep_recovery`'s
integer is coerced to float, and missing keys are defaulted to `0.0`. -/
theorem c5_counterexample :
    normalize_resilience_data
      [("id", .vstr "r1"),
       ("contributors", .vdict [("sleep_recovery", .vint 1), ("extra", .vint 7)])] 0
      = .ok ([("id", .vstr "r1")],
             some [("id", .vstr (uuidStr 0)), ("daily_resilience_id", .vstr "r1"),
                   ("sleep_recovery", .vfloat 1), ("daytime_recovery", .vfloat 0),
                   ("stress", .vfloat 0)],
             1) :=
  rfl

/-- **C5 amended.**  For the splat-based contributor normalizers (here
`_normalize_daily_sleep`), the claim holds provided the contributors
mapping has unique keys and does not itself use the reserved column names
`id` and `daily_sleep_id`: exactly one child row is emitted, its `id` is
the fresh draw, its foreign key is the item's `id`, every contributors key
is copied with its value unchanged, and the row's column set is exactly
`id`, the foreign key, and the contributors keys.  (The resilience
normalizer does not have this shape — see the counterexample.) -/
theorem c5_amended (data m : Fields) (pid : Val) (g : Nat)
    (hc : dlookup data "contributors" = some (.vdict m))
    (hid : dlookup data "id" = some pid)
    (hnd : (m.map Prod.fst).Nodup)
    (h1 : "id" ∉ m.map Prod.fst)
    (h2 : "daily_sleep_id" ∉ m.map Prod.fst) :
    ∃ c, normalize_daily_sleep data g
        = .ok (scalarFields data ["contributors"], some c, g + 1)
      ∧ dlookup c "id" = some (.vstr (uuidStr g))
      ∧ dlookup c "daily_sleep_id" = some pid
      ∧ (∀ k v, dlookup m k = some v → dlookup c k = some v)
      ∧ (∀ k, hasKey c k = true ↔
          (k = "id" ∨ k = "daily_sleep_id" ∨ k ∈ m.map Prod.fst)) := by
  refine ⟨dsplat [("id", .vstr (uuidStr g)), ("daily_sleep_id", pid)] m,
    ?_, ?_, ?_, ?_, ?_⟩
  · rw [normalize_daily_sleep, contribSplat, hc, hid]
  · rw [dlookup_dsplat_not_mem h1]
    rfl
  · rw [dlookup_dsplat_not_mem h2]
    rfl
  · intro k v hkv
    exact dlookup_dsplat_mem hnd hkv
  · intro k
    rw [hasKey_iff_mem, mem_keys_dsplat]
    simp only [List.map_cons, List.map_nil, List.mem_cons, List.not_mem_nil, or_false]
    tauto

/-- **C5 witness.**  The amended statement at a concrete input. -/
theorem c5_amended_witness :
    ∃ c, normalize_daily_sleep
        [("id", .vstr "a1"), ("day", .vstr "2024-01-01"), ("score", .vint 88),
         ("contributors", .vdict [("sleep_balance", .vint 70), ("timing", .vint 60)])] 0
        = .ok (scalarFields
            [("id", .vstr "a1"), ("day", .vstr "2024-01-01"), ("score", .vint 88),
             ("contributors", .vdict [("sleep_balance", .vint 70), ("timing", .vint 60)])]
            ["contributors"], some c, 0 + 1)
      ∧ dlookup c "id" = some (.vstr (uuidStr 0))
      ∧ dlookup c "daily_sleep_id" = some (.vstr "a1")
      ∧ (∀ k v, dlookup [("sleep_balance", Val.vint 70), ("timing", Val.vint 60)] k
            = some v → dlookup c k = some v)
      ∧ (∀ k, hasKey c k = true ↔
          (k = "id" ∨ k = "daily_sleep_id"
            ∨ k ∈ ([("sleep_balance", Val.vint 70),
                    ("timing", Val.vint 60)] : Fields).map Prod.fst)) :=
  c5_amended _ _ (.vstr "a1") 0 rfl rfl (by decide) (by decide) (by decide)

/-! ## Claim C6 — the scalar/container split -/

/-- **C6 counterexample.**  The claim says every scalar top-level key lands
on the primary record.  A scalar value under the declared nested name `met`
is excluded from the primary record by name and produces no child rows
either: the key vanishes from both sides of the "partition". -/
theorem c6_counterexample :
    normalize_activity_data [("id", .vstr "a"), ("met", .vint 5)] 0
      = .ok ([("id", .vstr "a")], none, [], 0) :=
  rfl

/-- **C6 amended.**  The split is by name-denylist plus container test, not
by the single generic scalar/container rule: for `_normalize_activity_data`
the primary record keeps exactly the non-container values outside
`contributors`/`met`, and the primary keys together with the declared
nested names present in the item partition the item's top-level keys —
provided every container value sits under a declared name.  A scalar under
a declared name appears on neither side. -/
theorem c6_amended (data : Fields)
    (hcont : ∀ kv ∈ data, kv.2.isContainer = true →
      kv.1 = "contributors" ∨ kv.1 = "met") :
    ∀ k : String,
      (k ∈ data.map Prod.fst ↔
        (hasKey (scalarFields data ["contributors", "met"]) k = true
          ∨ ((k = "contributors" ∨ k = "met") ∧ hasKey data k = true)))
      ∧ ¬(hasKey (scalarFields data ["contributors", "met"]) k = true
          ∧ (k = "contributors" ∨ k = "met")) := by
  intro k
  constructor
  · constructor
    · intro hk
      rw [List.mem_map] at hk
      obtain ⟨kv, hmem, hfst⟩ := hk
      obtain ⟨k1, v1⟩ := kv
      cases hfst
      by_cases hdecl : k1 = "contributors" ∨ k1 = "met"
      · exact Or.inr ⟨hdecl, hasKey_iff_mem.mpr (List.mem_map.mpr ⟨(k1, v1), hmem, rfl⟩)⟩
      · left
        rw [hasKey, scalarFields, dlookup_filter_isSome_iff]
        refine ⟨v1, hmem, ?_⟩
        have hvc : v1.isContainer = false := by
          by_contra hcc
          rw [Bool.not_eq_false] at hcc
          exact hdecl (hcont (k1, v1) hmem hcc)
        have hnotin : k1 ∉ (["contributors", "met"] : List String) := by
          simpa using hdecl
        simp [hvc, hnotin]
    · rintro (h | ⟨_, h⟩)
      · rw [hasKey, scalarFields, dlookup_filter_isSome_iff] at h
        obtain ⟨v, hmem, _⟩ := h
        exact List.mem_map.mpr ⟨(k, v), hmem, rfl⟩
      · exact hasKey_iff_mem.mp h
  · rintro ⟨h, hdecl⟩
    rw [hasKey, scalarFields, dlookup_filter_isSome_iff] at h
    obtain ⟨v, _, hp⟩ := h
    rcases hdecl with rfl | rfl <;> simp at hp

/-- **C6 witness.**  The amended statement at a concrete input and key. -/
theorem c6_amended_witness :
    ("score" ∈ ([("id", Val.vstr "a"), ("score", Val.vint 9),
        ("contributors", Val.vdict [])] : Fields).map Prod.fst ↔
      (hasKey (scalarFields [("id", Val.vstr "a"), ("score", Val.vint 9),
          ("contributors", Val.vdict [])] ["contributors", "met"]) "score" = true
        ∨ (("score" = "contributors" ∨ "score" = "met")
            ∧ hasKey [("id", Val.vstr "a"), ("score", Val.vint 9),
                ("contributors", Val.vdict [])] "score" = true)))
    ∧ ¬(hasKey (scalarFields [("id", Val.vstr "a"), ("score", Val.vint 9),
          ("contributors", Val.vdict [])] ["contributors", "met"]) "score" = true
        ∧ ("score" = "contributors" ∨ "score" = "met")) :=
  c6_amended _
    (by
      intro kv hkv
      simp only [List.mem_cons, List.not_mem_nil, or_false] at hkv
      rcases hkv with h | h | h <;> subst h <;> simp [Val.isContainer])
    "score"

/-! ## Claim C9 — unsupported metric types -/

theorem fallbackLoop_ok {items : List Val}
    (hdicts : ∀ it ∈ items, ∃ d : Fields, it = .vdict d) :
    ∃ rows, fallbackLoop items = .ok rows ∧ rows.length = items.length := by
  induction items with
  | nil => exact ⟨[], rfl, rfl⟩
  | cons it rest ih =>
    obtain ⟨d, hd⟩ := hdicts it (List.mem_cons_self it rest)
    obtain ⟨rows, hr, hl⟩ := ih fun x hx => hdicts x (List.mem_cons_of_mem _ hx)
    subst hd
    exact ⟨scalarFields d [] :: rows, by simp [fallbackLoop, asDict, hr], by simp [hl]⟩

/-- **C9 counterexample.**  The claim says normalization of a metric type
with no registered shape descriptor is a fatal error raised before any I/O.
`transform_to_parquet` on the unregistered type `workout` raises nothing:
the generic fallback flattens the items and writes them. -/
theorem c9_counterexample :
    transform_to_parquet "workout"
      [("data", .vlist [.vdict [("id", .vstr "w1"), ("calories", .vint 100)]])] 0
      = .ok ([("workout", [[("id", .vstr "w1"), ("calories", .vint 100)]])], 0) :=
  rfl

/-- **C9 amended.**  `transform_to_parquet` — the normalization path the
pipeline runs — has no unsupported-type error: any data type outside its
six shape-specific branches is processed by the generic fallback, which
keeps each item's scalar top-level fields and emits exactly one batch
(named after the data type) with one row per item and no child batches.
(Only the unused model-object path `transform_data` raises `ValueError`
for an unsupported type.) -/
theorem c9_amended (data_type : String) (raw : Fields) (g : Nat) (items : List Val)
    (hnot : data_type ∉ ["daily_activity", "sleep", "daily_readiness",
      "daily_sleep", "daily_spo2", "daily_resilience"])
    (hraw : dlookup raw "data" = some (.vlist items))
    (hne : items ≠ [])
    (hdicts : ∀ it ∈ items, ∃ d : Fields, it = .vdict d) :
    ∃ rows : List Fields,
      transform_to_parquet data_type raw g = .ok ([(data_type, rows)], g)
      ∧ rows.length = items.length := by
  simp only [List.mem_cons, List.not_mem_nil, or_false, not_or] at hnot
  obtain ⟨n1, n2, n3, n4, n5, n6⟩ := hnot
  obtain ⟨rows, hr, hl⟩ := fallbackLoop_ok hdicts
  refine ⟨rows, ?_, hl⟩
  cases items with
  | nil => exact absurd rfl hne
  | cons it rest =>
    rw [transform_to_parquet]
    simp [extractItems, hraw, n1, n2, n3, n4, n5, n6, hr]

/-- **C9 witness.**  The amended statement at a concrete input. -/
theorem c9_amended_witness :
    ∃ rows : List Fields,
      transform_to_parquet "daily_stress"
        [("data", .vlist [.vdict [("id", .vstr "s1"), ("stress_high", .vint 2)]])] 4
        = .ok ([("daily_stress", rows)], 4)
      ∧ rows.length
        = [Val.vdict [("id", Val.vstr "s1"), ("stress_high", Val.vint 2)]].length :=
  c9_amended "daily_stress" _ 4 _ (by decide) rfl (by simp)
    (by
      intro it hit
      simp only [List.mem_singleton] at hit
      exact ⟨_, hit⟩)

/-! ## Claim C2 — partial-failure semantics -/

/-- **C2 counterexample.**  The claim says a page of five items in which
item 3 lacks `id` still yields primary rows for items 1, 2, 4, 5 plus one
recorded failure.  With no per-item `try`/`except` in
`transform_to_parquet`, the `KeyError` from item 3 aborts the whole page:
no batch of any kind is produced. -/
theorem c2_counterexample :
    transform_to_parquet "daily_sleep"
      [("data", .vlist
        [ .vdict [("id", .vstr "a1"), ("day", .vstr "d1"), ("score", .vint 1),
                  ("contributors", .vdict [("timing", .vint 10)])],
          .vdict [("id", .vstr "a2"), ("day", .vstr "d2"), ("score", .vint 2),
                  ("contributors", .vdict [("timing", .vint 20)])],
          .vdict [("day", .vstr "d3"), ("score", .vint 3),
                  ("contributors", .vdict [("timing", .vint 30)])],
          .vdict [("id", .vstr "a4"), ("day", .vstr "d4"), ("score", .vint 4),
                  ("contributors", .vdict [("timing", .vint 40)])],
          .vdict [("id", .vstr "a5"), ("day", .vstr "d5"), ("score", .vint 5),
                  ("contributors", .vdict [("timing", .vint 50)])] ])] 0
      = .error "KeyError: id" :=
  rfl

theorem pairLoop_error_of_mem
    {step : Fields → Nat → Except String (Fields × Option Fields × Nat)}
    {items : List Val} {d : Fields}
    (hit : Val.vdict d ∈ items)
    (hbad : ∀ g : Nat, ∃ e, step d g = .error e) :
    ∀ g : Nat, ∃ e, pairLoop step items g = .error e := by
  induction items with
  | nil => simp at hit
  | cons it0 rest ih =>
    intro g
    rcases List.mem_cons.mp hit with heq | hrest
    · obtain ⟨e, he⟩ := hbad g
      exact ⟨e, by simp [pairLoop, ← heq, asDict, he]⟩
    · cases hd0 : asDict it0 with
      | error e => exact ⟨e, by simp [pairLoop, hd0]⟩
      | ok d0 =>
        cases hs : step d0 g with
        | error e => exact ⟨e, by simp [pairLoop, hd0, hs]⟩
        | ok res =>
          obtain ⟨p, copt, g1⟩ := res
          obtain ⟨e, he⟩ := ih hrest g1
          exact ⟨e, by simp [pairLoop, hd0, hs, he]⟩

theorem normalize_daily_sleep_error_of_missing_id {d : Fields}
    (hid : dlookup d "id" = none) (hc : hasKey d "contributors" = true) :
    ∀ g : Nat, ∃ e, normalize_daily_sleep d g = .error e := by
  intro g
  rw [hasKey, Option.isSome_iff_exists] at hc
  obtain ⟨v, hv⟩ := hc
  exact ⟨"KeyError: id", by simp [normalize_daily_sleep, contribSplat, hv, hid]⟩

/-- **C2 amended.**  There is no item-granularity failure handling: if any
item of a `daily_sleep` page lacks `id` while carrying a `contributors`
key, the whole page transform fails with an error and produces rows for no
item.  (Failures are recorded at file granularity by `transform_directory`,
which skips the failing file; an id-less item with no linked-child fields
is silently flattened with no failure recorded at all — see the C3
theorems.) -/
theorem c2_amended (raw : Fields) (items : List Val) (d : Fields) (g : Nat)
    (hraw : dlookup raw "data" = some (.vlist items))
    (hit : Val.vdict d ∈ items)
    (hid : dlookup d "id" = none)
    (hc : hasKey d "contributors" = true) :
    ∃ e, transform_to_parquet "daily_sleep" raw g = .error e := by
  obtain ⟨e, he⟩ :=
    pairLoop_error_of_mem hit (normalize_daily_sleep_error_of_missing_id hid hc) g
  cases items with
  | nil => simp at hit
  | cons it rest =>
    rw [transform_to_parquet]
    exact ⟨e, by simp [extractItems, hraw, he]⟩

/-- **C2 witness.**  The amended statement at a concrete page. -/
theorem c2_amended_witness :
    ∃ e, transform_to_parquet "daily_sleep"
      [("data", .vlist
        [ .vdict [("id", .vstr "b1"), ("day", .vstr "d1")],
          .vdict [("day", .vstr "d2"),
                  ("contributors", .vdict [("timing", .vint 9)])] ])] 0
      = .error e :=
  c2_amended _ _ [("day", .vstr "d2"), ("contributors", .vdict [("timing", .vint 9)])]
    0 rfl (by simp) rfl rfl

/-! ## Claim C7 — referential integrity of one assembler pass -/

theorem asDict_ok {it : Val} {d : Fields} (h : asDict it = .ok d) :
    it = .vdict d := by
  cases it <;> simp_all [asDict]

theorem contribSplat_fk {fk : String} {data : Fields} {g g' : Nat} {c : Fields}
    (hfk : fk ≠ "id")
    (hno : ∀ m : Fields, dlookup data "contributors" = some (.vdict m) →
      fk ∉ m.map Prod.fst)
    (h : contribSplat fk data g = .ok (some c, g')) :
    ∃ pid, dlookup data "id" = some pid ∧ dlookup c fk = some pid := by
  rw [contribSplat] at h
  cases hc : dlookup data "contributors" with
  | none =>
    rw [hc] at h
    simp at h
  | some v =>
    rw [hc] at h
    cases hid : dlookup data "id" with
    | none => rw [hid] at h; cases h
    | some pid =>
      rw [hid] at h
      cases v with
      | vdict m =>
        simp only [Except.ok.injEq, Prod.mk.injEq, Option.some.injEq] at h
        obtain ⟨hcs, _⟩ := h
        refine ⟨pid, rfl, ?_⟩
        rw [← hcs, dlookup_dsplat_not_mem (hno m hc)]
        simp [dlookup, Ne.symm hfk]
      | vnull => cases h
      | vnan => cases h
      | vbool b => cases h
      | vint n => cases h
      | vfloat q => cases h
      | vstr s => cases h
      | vlist l => cases h

theorem sampleLoop_fk {fk : String} {data : Fields} {ts iv : Val}
    (hfk : fk ≠ "id") :
    ∀ {vals : List Val} {g g' : Nat} {rows : List Fields},
      sampleLoop fk data ts iv vals g = .ok (rows, g') →
      ∀ c ∈ rows, ∃ pid, dlookup data "id" = some pid ∧ dlookup c fk = some pid := by
  intro vals
  induction vals with
  | nil =>
    intro g g' rows h c hc
    simp only [sampleLoop, Except.ok.injEq, Prod.mk.injEq] at h
    rw [← h.1] at hc
    simp at hc
  | cons v rest ih =>
    intro g g' rows h c hc
    rw [sampleLoop] at h
    by_cases hnone : isNoneVal v = true
    · rw [if_pos hnone] at h
      exact ih h c hc
    · rw [if_neg hnone] at h
      cases hnan : npIsNan v with
      | error e => rw [hnan] at h; cases h
      | ok b =>
        rw [hnan] at h
        cases b with
        | true => exact ih h c hc
        | false =>
          cases hid : dlookup data "id" with
          | none => rw [hid] at h; cases h
          | some pid =>
            rw [hid] at h
            cases hf : pyFloat v with
            | error e => rw [hf] at h; cases h
            | ok fv =>
              rw [hf] at h
              cases hrec : sampleLoop fk data ts iv rest (g + 1) with
              | error e => rw [hrec] at h; cases h
              | ok pr =>
                obtain ⟨rows', g''⟩ := pr
                rw [hrec] at h
                simp only [Except.ok.injEq, Prod.mk.injEq] at h
                obtain ⟨hrows, _⟩ := h
                rw [← hrows] at hc
                rcases List.mem_cons.mp hc with heq | hmem
                · subst heq
                  refine ⟨pid, rfl, ?_⟩
                  simp [dlookup, Ne.symm hfk]
                · obtain ⟨pid', hp1, hp2⟩ := ih hrec c hmem
                  rw [hid] at hp1
                  exact ⟨pid', hp1, hp2⟩

theorem sampleRows_fk {fk : String} {data series : Fields} {g g' : Nat}
    {rows : List Fields} (hfk : fk ≠ "id")
    (h : sampleRows fk data series g = .ok (rows, g')) :
    ∀ c ∈ rows, ∃ pid, dlookup data "id" = some pid ∧ dlookup c fk = some pid := by
  rw [sampleRows] at h
  cases hv : (dlookup series "items").getD (.vlist []) with
  | vlist l => rw [hv] at h; exact sampleLoop_fk hfk h
  | vdict m => rw [hv] at h; exact sampleLoop_fk hfk h
  | vstr s => rw [hv] at h; exact sampleLoop_fk hfk h
  | vnull => rw [hv] at h; cases h
  | vnan => rw [hv] at h; cases h
  | vbool b => rw [hv] at h; cases h
  | vint n => rw [hv] at h; cases h
  | vfloat q => rw [hv] at h; cases h

theorem seriesStep_fk {fk s : String} {data : Fields} {g g' : Nat}
    {rows : List Fields} (hfk : fk ≠ "id")
    (h : seriesStep fk s data g = .ok (rows, g')) :
    ∀ c ∈ rows, ∃ pid, dlookup data "id" = some pid ∧ dlookup c fk = some pid := by
  rw [seriesStep] at h
  cases hv : dlookup data s with
  | none =>
    rw [hv] at h
    simp only [Except.ok.injEq, Prod.mk.injEq] at h
    intro c hc
    rw [← h.1] at hc
    simp at hc
  | some v =>
    rw [hv] at h
    cases v with
    | vdict series => exact sampleRows_fk hfk h
    | vnull =>
      simp only [Except.ok.injEq, Prod.mk.injEq] at h
      intro c hc
      rw [← h.1] at hc
      simp at hc
    | vnan =>
      simp only [Except.ok.injEq, Prod.mk.injEq] at h
      intro c hc
      rw [← h.1] at hc
      simp at hc
    | vbool b =>
      simp only [Except.ok.injEq, Prod.mk.injEq] at h
      intro c hc
      rw [← h.1] at hc
      simp at hc
    | vint n =>
      simp only [Except.ok.injEq, Prod.mk.injEq] at h
      intro c hc
      rw [← h.1] at hc
      simp at hc
    | vfloat q =>
      simp only [Except.ok.injEq, Prod.mk.injEq] at h
      intro c hc
      rw [← h.1] at hc
      simp at hc
    | vstr str =>
      simp only [Except.ok.injEq, Prod.mk.injEq] at h
      intro c hc
      rw [← h.1] at hc
      simp at hc
    | vlist l =>
      simp only [Except.ok.injEq, Prod.mk.injEq] at h
      intro c hc
      rw [← h.1] at hc
      simp at hc

theorem normalize_activity_inv {d : Fields} {g : Nat} {a : Fields}
    {copt : Option Fields} {ms : List Fields} {g' : Nat}
    (h : normalize_activity_data d g = .ok (a, copt, ms, g')) :
    a = scalarFields d ["contributors", "met"] ∧
    ∃ g1, contribSplat "daily_activity_id" d g = .ok (copt, g1) ∧
          seriesStep "daily_activity_id" "met" d g1 = .ok (ms, g') := by
  rw [normalize_activity_data] at h
  split at h
  next e heq => cases h
  next contribs g1 heq =>
    split at h
    next e2 heq2 => cases h
    next metrics g2 heq2 =>
      simp only [Except.ok.injEq, Prod.mk.injEq] at h
      obtain ⟨h1, h2, h3, h4⟩ := h
      subst h1 h2 h3 h4
      exact ⟨rfl, g1, heq, heq2⟩

theorem scalarFields_id {data : Fields} {pid : Val} {excl : List String}
    (hid : dlookup data "id" = some pid) (hpc : pid.isContainer = false)
    (hexcl : "id" ∉ excl) :
    dlookup (scalarFields data excl) "id" = some pid := by
  rw [scalarFields]
  apply dlookup_filter hid
  simp [hpc, hexcl]

/-- **C7.**  Referential integrity of one `daily_activity` assembler pass:
for every child row — contributor or metric sample — produced by a
successful pass over a page of items, the foreign key
`daily_activity_id` equals the `id` of some primary row of the same pass,
provided every item's `id` value (when present) is a scalar and no
contributors mapping itself uses the column name `daily_activity_id`
(as the spec's data model stipulates: vendor-supplied string ids and
sub-score contributor mappings). -/
theorem c7_referential_integrity :
    ∀ (items : List Val) (g g' : Nat) (prims contribs mets : List Fields),
      activityLoop items g = .ok ((prims, contribs, mets), g') →
      (∀ d : Fields, Val.vdict d ∈ items →
        (∀ v, dlookup d "id" = some v → v.isContainer = false) ∧
        (∀ m : Fields, dlookup d "contributors" = some (.vdict m) →
          "daily_activity_id" ∉ m.map Prod.fst)) →
      ∀ c ∈ contribs ++ mets, ∃ p ∈ prims, ∃ pid,
        dlookup c "daily_activity_id" = some pid ∧ dlookup p "id" = some pid := by
  intro items
  induction items with
  | nil =>
    intro g g' prims contribs mets h hty c hc
    simp only [activityLoop, Except.ok.injEq, Prod.mk.injEq] at h
    obtain ⟨⟨h1, h2, h3⟩, _⟩ := h
    rw [← h2, ← h3] at hc
    simp at hc
  | cons it rest ih =>
    intro g g' prims contribs mets h hty c hc
    rw [activityLoop] at h
    split at h
    next e heq => cases h
    next d heq =>
      split at h
      next e2 heq2 => cases h
      next a copt ms g1 heq2 =>
        split at h
        next e3 heq3 => cases h
        next acts cs mss g2 heq3 =>
          simp only [Except.ok.injEq, Prod.mk.injEq] at h
          obtain ⟨⟨hp, hcs, hms⟩, _⟩ := h
          have hdmem : Val.vdict d ∈ it :: rest := by
            rw [← asDict_ok heq]
            exact List.mem_cons_self _ _
          obtain ⟨hid_ty, hcon_ty⟩ := hty d hdmem
          obtain ⟨ha, g1', hcsp, hss⟩ := normalize_activity_inv heq2
          subst hp hcs hms
          have hty' : ∀ d' : Fields, Val.vdict d' ∈ rest →
              (∀ v, dlookup d' "id" = some v → v.isContainer = false) ∧
              (∀ m : Fields, dlookup d' "contributors" = some (.vdict m) →
                "daily_activity_id" ∉ m.map Prod.fst) :=
            fun d' hd' => hty d' (List.mem_cons_of_mem _ hd')
          rcases List.mem_append.mp hc with hcl | hcr
          · cases copt with
            | none =>
              obtain ⟨p, hpmem, pid, hh1, hh2⟩ := ih g1 g2 acts cs mss heq3 hty' c
                (List.mem_append.mpr (Or.inl hcl))
              exact ⟨p, List.mem_cons_of_mem _ hpmem, pid, hh1, hh2⟩
            | some c0 =>
              rcases List.mem_cons.mp hcl with hceq | hmem
              · subst hceq
                obtain ⟨pid, hpid, hfkc⟩ := contribSplat_fk (by decide) hcon_ty hcsp
                refine ⟨a, List.mem_cons_self _ _, pid, hfkc, ?_⟩
                rw [ha]
                exact scalarFields_id hpid (hid_ty pid hpid) (by decide)
              · obtain ⟨p, hpmem, pid, hh1, hh2⟩ := ih g1 g2 acts cs mss heq3 hty' c
                  (List.mem_append.mpr (Or.inl hmem))
                exact ⟨p, List.mem_cons_of_mem _ hpmem, pid, hh1, hh2⟩
          · rcases List.mem_append.mp hcr with hmem | hmem
            · obtain ⟨pid, hpid, hfkc⟩ := seriesStep_fk (by decide) hss c hmem
              refine ⟨a, List.mem_cons_self _ _, pid, hfkc, ?_⟩
              rw [ha]
              exact scalarFields_id hpid (hid_ty pid hpid) (by decide)
            · obtain ⟨p, hpmem, pid, hh1, hh2⟩ := ih g1 g2 acts cs mss heq3 hty' c
                (List.mem_append.mpr (Or.inr hmem))
              exact ⟨p, List.mem_cons_of_mem _ hpmem, pid, hh1, hh2⟩

/-- **C7 witness.**  The integrity statement at a concrete one-item page
(which produces a contributor row and two metric sample rows), read off at
the contributor row. -/
theorem c7_referential_integrity_witness :
    ∃ p ∈ ([[("id", Val.vstr "a1"), ("day", Val.vstr "d")]] : List Fields), ∃ pid,
      dlookup [("id", Val.vstr (uuidStr 0)), ("daily_activity_id", Val.vstr "a1"),
               ("stay_active", Val.vint 80)] "daily_activity_id" = some pid
      ∧ dlookup p "id" = some pid :=
  c7_referential_integrity
    [.vdict [("id", .vstr "a1"), ("day", .vstr "d"),
             ("contributors", .vdict [("stay_active", .vint 80)]),
             ("met", .vdict [("timestamp", .vstr "t0"), ("interval", .vint 60),
                             ("items", .vlist [.vint 2, .vnull, .vint 3])])]]
    0 3 [[("id", Val.vstr "a1"), ("day", Val.vstr "d")]]
    [[("id", Val.vstr (uuidStr 0)), ("daily_activity_id", Val.vstr "a1"),
      ("stay_active", Val.vint 80)]]
    [[("id", Val.vstr (uuidStr 1)), ("daily_activity_id", Val.vstr "a1"),
      ("timestamp", Val.vstr "t0"), ("interval", Val.vint 60),
      ("value", Val.vfloat 2)],
     [("id", Val.vstr (uuidStr 2)), ("daily_activity_id", Val.vstr "a1"),
      ("timestamp", Val.vstr "t0"), ("interval", Val.vint 60),
      ("value", Val.vfloat 3)]]
    rfl
    (by
      intro d hd
      simp only [List.mem_singleton] at hd
      injection hd with hd
      subst hd
      refine ⟨?_, ?_⟩
      · intro v hv
        simp [dlookup] at hv
        subst hv
        rfl
      · intro m hm
        simp [dlookup] at hm
        subst hm
        decide)
    [("id", Val.vstr (uuidStr 0)), ("daily_activity_id", Val.vstr "a1"),
     ("stay_active", Val.vint 80)]
    (by simp)

/-! ## Claim C8 — child loads are not idempotent -/

/-- **C8.**  Child rows are keyed by a fresh draw on every normalization
pass: normalizing the same `daily_sleep` item from two distinct supply
states yields contributor rows with distinct `id`s, so upserting both
batches (`save_records`) leaves TWO rows for the one source child —
re-running normalization and load duplicates child rows instead of
converging. -/
theorem c8_child_keys_not_idempotent
    (d m : Fields) (pid : Val) (g g' : Nat)
    (hc : dlookup d "contributors" = some (.vdict m))
    (hid : dlookup d "id" = some pid)
    (h1 : "id" ∉ m.map Prod.fst)
    (hne : g ≠ g') :
    ∃ c1 c2 : Fields,
      normalize_daily_sleep d g
        = .ok (scalarFields d ["contributors"], some c1, g + 1)
      ∧ normalize_daily_sleep d g'
        = .ok (scalarFields d ["contributors"], some c2, g' + 1)
      ∧ dlookup c1 "id" = some (.vstr (uuidStr g))
      ∧ dlookup c2 "id" = some (.vstr (uuidStr g'))
      ∧ uuidStr g ≠ uuidStr g'
      ∧ save_records (save_records [] [⟨uuidStr g, c1⟩]) [⟨uuidStr g', c2⟩]
          = [⟨uuidStr g, c1⟩, ⟨uuidStr g', c2⟩] := by
  have hneq : uuidStr g ≠ uuidStr g' := fun hq => hne (uuidStr_injective hq)
  refine ⟨dsplat [("id", .vstr (uuidStr g)), ("daily_sleep_id", pid)] m,
          dsplat [("id", .vstr (uuidStr g')), ("daily_sleep_id", pid)] m,
          ?_, ?_, ?_, ?_, hneq, ?_⟩
  · rw [normalize_daily_sleep, contribSplat, hc, hid]
  · rw [normalize_daily_sleep, contribSplat, hc, hid]
  · rw [dlookup_dsplat_not_mem h1]
    rfl
  · rw [dlookup_dsplat_not_mem h1]
    rfl
  · have hb : (uuidStr g == uuidStr g') = false := beq_eq_false_iff_ne.mpr hneq
    simp [save_records, merge1, hb]

/-- **C8 witness.**  The statement at a concrete item and the supply states
of two consecutive passes. -/
theorem c8_child_keys_not_idempotent_witness :
    ∃ c1 c2 : Fields,
      normalize_daily_sleep
          [("id", .vstr "a1"), ("day", .vstr "dd"),
           ("contributors", .vdict [("timing", .vint 3)])] 0
        = .ok (scalarFields
            [("id", .vstr "a1"), ("day", .vstr "dd"),
             ("contributors", .vdict [("timing", .vint 3)])] ["contributors"],
            some c1, 0 + 1)
      ∧ normalize_daily_sleep
          [("id", .vstr "a1"), ("day", .vstr "dd"),
           ("contributors", .vdict [("timing", .vint 3)])] 1
        = .ok (scalarFields
            [("id", .vstr "a1"), ("day", .vstr "dd"),
             ("contributors", .vdict [("timing", .vint 3)])] ["contributors"],
            some c2, 1 + 1)
      ∧ dlookup c1 "id" = some (.vstr (uuidStr 0))
      ∧ dlookup c2 "id" = some (.vstr (uuidStr 1))
      ∧ uuidStr 0 ≠ uuidStr 1
      ∧ save_records (save_records [] [⟨uuidStr 0, c1⟩]) [⟨uuidStr 1, c2⟩]
          = [⟨uuidStr 0, c1⟩, ⟨uuidStr 1, c2⟩] :=
  c8_child_keys_not_idempotent _ [("timing", .vint 3)] (.vstr "a1") 0 1
    rfl rfl (by decide) (by decide)

/-! ## Claim C10 — empty or missing `data` -/

/-- **C10.**  For every data type, transforming a payload whose `data` key
is absent or maps to an empty list produces no batches for any relation and
raises no error. -/
theorem c10_empty_data_no_output (data_type : String) (raw : Fields) (g : Nat)
    (h : dlookup raw "data" = none ∨ dlookup raw "data" = some (.vlist [])) :
    transform_to_parquet data_type raw g = .ok ([], g) := by
  rcases h with h | h <;> simp [transform_to_parquet, extractItems, h]

/-- **C10 witness.**  The statement at concrete inputs. -/
theorem c10_empty_data_no_output_witness :
    transform_to_parquet "daily_activity" [("day", .vstr "x")] 0 = .ok ([], 0)
    ∧ transform_to_parquet "sleep" [("data", .vlist [])] 3 = .ok ([], 3) :=
  ⟨c10_empty_data_no_output "daily_activity" [("day", .vstr "x")] 0 (Or.inl rfl),
   c10_empty_data_no_output "sleep" [("data", .vlist [])] 3 (Or.inr rfl)⟩

end OuraEtl
